import Mathlib

/-!
Verification of the engagement-store / insight-learner core of the
CodeToContent repository (`src/agent/memory/database.py` and
`src/agent/memory/learner.py`).

Modelling conventions:
* SQLite tables are lists of rows in insertion order; `created_at` /
  `added_at` ordering is the list order (timestamps are modelled as
  logical clock values passed in by the caller where a row stores one).
* SQLite `REAL` scores and Python floats are modelled as `ℚ`.
* `uuid4` primary keys are modelled as identifier parameters supplied
  by the environment.
* `ORDER BY score DESC` leaves tie order unspecified in SQLite; the
  model determinises it with a stable descending sort.
-/

set_option autoImplicit false

namespace CodeToContent

/-- Row of the `insights` table: a learned aggregate for one
(chat_id, insight_type, insight_key) triple.  The `id` and `updated_at`
columns are not observable through any modelled query and are omitted. -/
structure Insight where
  chat_id : String
  insight_type : String
  insight_key : String
  score : ℚ
  sample_size : ℕ
  deriving Repr, DecidableEq

/-- Row of the `posts` table.  `created_at` is the position in the list. -/
structure Post where
  id : String
  chat_id : String
  repo_url : Option String
  content : String
  trend_matched : Option String
  linkedin_post_id : Option String
  reasoning : Option String
  posted_at : Option ℕ
  deriving Repr, DecidableEq

/-- Row of the `metrics` table. -/
structure MetricsRow where
  id : String
  post_id : String
  likes : ℕ
  comments : ℕ
  shares : ℕ
  impressions : ℕ
  deriving Repr, DecidableEq

/-- Row of the `user_repos` table. -/
structure UserRepo where
  id : String
  chat_id : String
  repo_url : String
  last_indexed_at : Option ℕ
  deriving Repr, DecidableEq

/-- The whole SQLite database. -/
structure DB where
  posts : List Post
  metrics : List MetricsRow
  insights : List Insight
  user_repos : List UserRepo
  deriving Repr, DecidableEq

/-- A freshly initialised database (`_init_tables` creates empty tables). -/
def emptyDB : DB := ⟨[], [], [], []⟩

/-!  ## Insight Learner: engagement score
`InsightLearner.calculate_engagement_score` in `learner.py`. -/

/-- `calculate_engagement_score(likes, comments, shares, impressions)`:
weighted raw value `likes + comments*3 + shares*2`; without impressions the
raw value is doubled and capped at 100; with impressions the rate
`raw/impressions*100` is scaled by 10 and capped at 100. -/
def calculate_engagement_score (likes comments shares impressions : ℕ) : ℚ :=
  if impressions = 0 then
    min 100 (((likes : ℚ) + comments * 3 + shares * 2) * 2)
  else
    min 100 ((((likes : ℚ) + comments * 3 + shares * 2) / impressions * 100) * 10)

/-- C2: the engagement score is `min(100, 2*(likes + 3*comments + 2*shares))`
when `impressions = 0`, is `min(100, 10 * 100 * raw / impressions)` when
`impressions > 0`, and always lies in `[0, 100]`. -/
theorem engagement_score_spec (likes comments shares impressions : ℕ) :
    calculate_engagement_score likes comments shares 0
      = min 100 (2 * ((likes : ℚ) + 3 * comments + 2 * shares)) ∧
    (0 < impressions →
      calculate_engagement_score likes comments shares impressions
        = min 100 (10 * 100 * ((likes : ℚ) + 3 * comments + 2 * shares)
            / impressions)) ∧
    0 ≤ calculate_engagement_score likes comments shares impressions ∧
    calculate_engagement_score likes comments shares impressions ≤ 100 := by
  refine ⟨?_, ?_, ?_, ?_⟩
  · simp only [calculate_engagement_score]
    rw [if_pos trivial]
    congr 1
    ring
  · intro h
    have h0 : impressions ≠ 0 := Nat.pos_iff_ne_zero.mp h
    simp only [calculate_engagement_score, if_neg h0]
    congr 1
    field_simp
    ring
  · unfold calculate_engagement_score
    split
    · exact le_min (by norm_num) (by positivity)
    · exact le_min (by norm_num) (by positivity)
  · unfold calculate_engagement_score
    split
    · exact min_le_left _ _
    · exact min_le_left _ _

/-- Witness for C2: concrete evaluation at
`likes = 1, comments = 2, shares = 3, impressions = 4`. -/
theorem engagement_score_spec_witness :
    calculate_engagement_score 1 2 3 4
      = min 100 (10 * 100 * ((1 : ℚ) + 3 * 2 + 2 * 3) / 4) :=
  (engagement_score_spec 1 2 3 4).2.1 (by decide)

/-!  ## Engagement Store: insights (`Database.update_insight`) -/

/-- The `UNIQUE(chat_id, insight_type, insight_key)` conflict predicate. -/
def insightKeyMatches (i : Insight) (cid ty key : String) : Bool :=
  i.chat_id == cid && i.insight_type == ty && i.insight_key == key

/-- `Database.update_insight`: SQLite
`INSERT ... ON CONFLICT(chat_id, insight_type, insight_key) DO UPDATE SET
score = (score * sample_size + excluded.score) / (sample_size + 1),
sample_size = sample_size + 1` — unqualified column names on the right-hand
sides refer to the pre-update row.  Without a conflicting row the new row is
inserted with the given `score` and `sample_size` (the Python default is 1). -/
def update_insight (tbl : List Insight) (cid ty key : String) (score : ℚ)
    (sample_size : ℕ) : List Insight :=
  if tbl.any (fun i => insightKeyMatches i cid ty key) then
    tbl.map (fun i =>
      if insightKeyMatches i cid ty key then
        { i with
          score := (i.score * i.sample_size + score) / (i.sample_size + 1),
          sample_size := i.sample_size + 1 }
      else i)
  else
    tbl ++ [⟨cid, ty, key, score, sample_size⟩]

/-- Row lookup for an `(owner, dimension, key)` triple (SQL
`SELECT * FROM insights WHERE chat_id = ? AND insight_type = ? AND
insight_key = ?`, unique by the table constraint). -/
def findInsight (tbl : List Insight) (cid ty key : String) : Option Insight :=
  tbl.find? (fun i => insightKeyMatches i cid ty key)

lemma insightKeyMatches_self (cid ty key : String) (score : ℚ) (n : ℕ) :
    insightKeyMatches ⟨cid, ty, key, score, n⟩ cid ty key = true := by
  simp [insightKeyMatches]

lemma findInsight_update_of_none (tbl : List Insight) (cid ty key : String)
    (score : ℚ) (n : ℕ) (h : findInsight tbl cid ty key = none) :
    findInsight (update_insight tbl cid ty key score n) cid ty key
      = some ⟨cid, ty, key, score, n⟩ := by
  have h' : tbl.find? (fun i => insightKeyMatches i cid ty key) = none := h
  have hany : tbl.any (fun i => insightKeyMatches i cid ty key) = false := by
    simp only [List.any_eq_false]
    exact List.find?_eq_none.mp h'
  rw [update_insight, if_neg (by simp [hany])]
  show (tbl ++ [(⟨cid, ty, key, score, n⟩ : Insight)]).find?
      (fun i => insightKeyMatches i cid ty key) = _
  rw [List.find?_append, h']
  simp [insightKeyMatches_self]

lemma findInsight_update_of_some (tbl : List Insight) (cid ty key : String)
    (score : ℚ) (n : ℕ) (i : Insight)
    (h : findInsight tbl cid ty key = some i) :
    findInsight (update_insight tbl cid ty key score n) cid ty key
      = some { i with
          score := (i.score * i.sample_size + score) / (i.sample_size + 1),
          sample_size := i.sample_size + 1 } := by
  have h' : tbl.find? (fun j => insightKeyMatches j cid ty key) = some i := h
  have hmem : i ∈ tbl := List.mem_of_find?_eq_some h'
  have hpi : insightKeyMatches i cid ty key = true := by
    have hp := List.find?_some h'
    simpa using hp
  have hany : tbl.any (fun j => insightKeyMatches j cid ty key) = true :=
    List.any_eq_true.mpr ⟨i, hmem, hpi⟩
  rw [update_insight, if_pos (by simp [hany])]
  show ((tbl.map (fun j =>
      if insightKeyMatches j cid ty key then
        { j with
          score := (j.score * j.sample_size + score) / (j.sample_size + 1),
          sample_size := j.sample_size + 1 }
      else j)).find? (fun j => insightKeyMatches j cid ty key)) = _
  rw [List.find?_map]
  have hcomp :
      ((fun j => insightKeyMatches j cid ty key) ∘
        (fun j => if insightKeyMatches j cid ty key then
          { j with
            score := (j.score * j.sample_size + score) / (j.sample_size + 1),
            sample_size := j.sample_size + 1 }
          else j))
      = fun j => insightKeyMatches j cid ty key := by
    funext j
    by_cases hj : insightKeyMatches j cid ty key
    · simp only [Function.comp_apply, if_pos hj]
      rfl
    · simp only [Function.comp_apply, if_neg hj]
  rw [hcomp, h']
  simp [hpi]

/-- C1: `upsert_insight` inserts `(score, sample_size)` when the
`(owner, dimension, key)` row is absent, otherwise folds the new score into
the running mean `(old_score * old_n + score) / (old_n + 1)` with
`old_n + 1` samples; from no row, calls with scores 90, 60, 30 (each with
the default sample size 1) leave score 60 and sample size 3. -/
theorem upsert_insight_spec (tbl : List Insight) (cid ty key : String)
    (score : ℚ) (n : ℕ) :
    (findInsight tbl cid ty key = none →
      findInsight (update_insight tbl cid ty key score n) cid ty key
        = some ⟨cid, ty, key, score, n⟩) ∧
    (∀ i, findInsight tbl cid ty key = some i →
      findInsight (update_insight tbl cid ty key score n) cid ty key
        = some { i with
            score := (i.score * i.sample_size + score) / (i.sample_size + 1),
            sample_size := i.sample_size + 1 }) ∧
    (findInsight
        (update_insight
          (update_insight (update_insight [] cid ty key 90 1) cid ty key 60 1)
          cid ty key 30 1) cid ty key
      = some ⟨cid, ty, key, 60, 3⟩) := by
  refine ⟨findInsight_update_of_none tbl cid ty key score n,
    fun i => findInsight_update_of_some tbl cid ty key score n i, ?_⟩
  have h1 : findInsight (update_insight [] cid ty key 90 1) cid ty key
      = some ⟨cid, ty, key, 90, 1⟩ :=
    findInsight_update_of_none [] cid ty key 90 1 rfl
  have h2 := findInsight_update_of_some _ cid ty key 60 1 _ h1
  have e2 : ({ (⟨cid, ty, key, 90, 1⟩ : Insight) with
      score := ((90 : ℚ) * (1 : ℕ) + 60) / ((1 : ℕ) + 1),
      sample_size := 1 + 1 } : Insight) = ⟨cid, ty, key, 75, 2⟩ := by
    simp only [Insight.mk.injEq]
    norm_num
  rw [e2] at h2
  have h3 := findInsight_update_of_some _ cid ty key 30 1 _ h2
  have e3 : ({ (⟨cid, ty, key, 75, 2⟩ : Insight) with
      score := ((75 : ℚ) * (2 : ℕ) + 30) / ((2 : ℕ) + 1),
      sample_size := 2 + 1 } : Insight) = ⟨cid, ty, key, 60, 3⟩ := by
    simp only [Insight.mk.injEq]
    norm_num
  rw [e3] at h3
  exact h3

/-- Witness for C1: upserting into an empty table inserts the row as given. -/
theorem upsert_insight_spec_witness :
    findInsight (update_insight [] "u1" "topic" "ai" 90 1) "u1" "topic" "ai"
      = some ⟨"u1", "topic", "ai", 90, 1⟩ :=
  (upsert_insight_spec [] "u1" "topic" "ai" 90 1).1 rfl

/-!  ## Engagement Store: posts -/

/-- `Database.create_post`: insert a draft row; `linkedin_post_id` and
`posted_at` start as SQL NULL.  The fresh `uuid4` id is a parameter. -/
def create_post (db : DB) (pid cid content : String)
    (repo_url trend_matched reasoning : Option String) : DB :=
  { db with posts := db.posts ++
      [⟨pid, cid, repo_url, content, trend_matched, none, reasoning, none⟩] }

/-- `Database.mark_post_published`: SQL
`UPDATE posts SET linkedin_post_id = ?, posted_at = ? WHERE id = ?`. -/
def mark_post_published (db : DB) (pid lid : String) (now : ℕ) : DB :=
  { db with posts := db.posts.map (fun p =>
      if p.id == pid then
        { p with linkedin_post_id := some lid, posted_at := some now }
      else p) }

/-- `Database.get_post`. -/
def get_post (db : DB) (pid : String) : Option Post :=
  db.posts.find? (fun p => p.id == pid)

/-- `Database.get_last_post`: most recent post of the owner by creation
order (`ORDER BY created_at DESC LIMIT 1`). -/
def get_last_post (db : DB) (cid : String) : Option Post :=
  (db.posts.filter (fun p => p.chat_id == cid)).getLast?

/-!  ## Engagement Store: metrics -/

/-- `Database.update_metrics`: delete every metrics row of the post, then
insert the new snapshot. -/
def update_metrics (db : DB) (mid pid : String)
    (likes comments shares impressions : ℕ) : DB :=
  { db with metrics := (db.metrics.filter (fun m => !(m.post_id == pid))) ++
      [⟨mid, pid, likes, comments, shares, impressions⟩] }

/-- `Database.get_metrics`. -/
def get_metrics (db : DB) (pid : String) : Option MetricsRow :=
  db.metrics.find? (fun m => m.post_id == pid)

/-- All metrics rows of one post (for stating the one-row invariant). -/
def metricsFor (db : DB) (pid : String) : List MetricsRow :=
  db.metrics.filter (fun m => m.post_id == pid)

/-!  ## Engagement Store: user repos -/

def capacityMessage : String :=
  "Maximum 5 repos allowed. Remove one first with /removerepo"

def duplicateMessage : String := "Repo already added"

/-- `Database.add_repo`: reject at 5 registrations for the owner, then
reject a `UNIQUE(chat_id, repo_url)` violation, otherwise insert. -/
def add_repo (db : DB) (rid cid url : String) : DB × Bool × String :=
  if 5 ≤ (db.user_repos.filter (fun r => r.chat_id == cid)).length then
    (db, false, capacityMessage)
  else if db.user_repos.any (fun r => r.chat_id == cid && r.repo_url == url) then
    (db, false, duplicateMessage)
  else
    ({ db with user_repos := db.user_repos ++ [⟨rid, cid, url, none⟩] },
      true, "Added repo: " ++ url)

/-- `Database.remove_repo`. -/
def remove_repo (db : DB) (cid url : String) : DB × Bool × String :=
  let remaining :=
    db.user_repos.filter (fun r => !(r.chat_id == cid && r.repo_url == url))
  if remaining.length < db.user_repos.length then
    ({ db with user_repos := remaining }, true, "Removed repo: " ++ url)
  else
    (db, false, "Repo not found")

/-- `Database.update_repo_indexed`. -/
def update_repo_indexed (db : DB) (cid url : String) (now : ℕ) : DB :=
  { db with user_repos := db.user_repos.map (fun r =>
      if r.chat_id == cid && r.repo_url == url then
        { r with last_indexed_at := some now }
      else r) }

/-!  ## String helpers (Python semantics over `List Char`) -/

/-- The backtick character (code point 0x60). -/
def backtick : Char := Char.ofNat 96

/-- Whether the character list starts with three backticks. -/
def startsWithFence : List Char → Bool
  | a :: b :: c :: _ => a == backtick && b == backtick && c == backtick
  | _ => false

/-- Whether a triple-backtick fenced-code marker occurs anywhere
(Python `"` + "``" + `" in content` — the three-character substring test). -/
def containsCodeFence : List Char → Bool
  | [] => false
  | c :: rest => startsWithFence (c :: rest) || containsCodeFence rest

/-- `"```" in content` on strings. -/
def hasCodeFence (s : String) : Bool := containsCodeFence s.data

/-- Number of whitespace-delimited tokens, Python `len(s.split())`:
the flag records whether the previous character was inside a word. -/
def wordCountAux : List Char → Bool → ℕ
  | [], _ => 0
  | c :: rest, inWord =>
    if c.isWhitespace then wordCountAux rest false
    else (if inWord then 0 else 1) + wordCountAux rest true

/-- Python `len(s.split())`. -/
def wordCount (s : String) : ℕ := wordCountAux s.data false

/-- The length-dimension key of `learn_from_post`. -/
def lengthKeyOf (wc : ℕ) : String :=
  if wc < 100 then "short" else if wc < 250 then "medium" else "long"

/-- Python `s.split("/")` (single-character separator). -/
def splitSlashAux : List Char → List Char → List (List Char)
  | [], acc => [acc.reverse]
  | c :: rest, acc =>
    if c = '/' then acc.reverse :: splitSlashAux rest []
    else splitSlashAux rest (c :: acc)

/-- Python `url.rstrip("/").split("/")[-1]`: the repo short name. -/
def repoShortName (url : String) : String :=
  ⟨(splitSlashAux ((url.data.reverse.dropWhile (fun c => c = '/')).reverse)
      []).getLastD []⟩

/-- Python `s.lower()` (ASCII suffices for this code base). -/
def lowerString (s : String) : String := ⟨s.data.map Char.toLower⟩

/-- Python truthiness of an optional string: `None` and `""` are falsy. -/
def strTruthy : Option String → Bool
  | none => false
  | some s => !(s.data.isEmpty)

/-!  ## Insight Learner: learning and recommendations -/

/-- `InsightLearner.learn_from_post`: no-op unless the post and its metrics
both exist; otherwise upsert the topic (if a trend is recorded), repo (if a
repository is recorded), style and length dimensions with the engagement
score, each with the default sample size 1. -/
def learn_from_post (db : DB) (pid cid : String) : DB :=
  match get_post db pid, get_metrics db pid with
  | some post, some m =>
    let score :=
      calculate_engagement_score m.likes m.comments m.shares m.impressions
    let t1 :=
      if strTruthy post.trend_matched then
        update_insight db.insights cid "topic"
          (lowerString (post.trend_matched.getD "")) score 1
      else db.insights
    let t2 :=
      if strTruthy post.repo_url then
        update_insight t1 cid "repo"
          (repoShortName (post.repo_url.getD "")) score 1
      else t1
    let t3 := update_insight t2 cid "style"
      (if hasCodeFence post.content then "with_code" else "no_code") score 1
    let t4 := update_insight t3 cid "length"
      (lengthKeyOf (wordCount post.content)) score 1
    { db with insights := t4 }
  | _, _ => db

/-- Stable insertion into a score-descending list of insights. -/
def insertInsightDesc (p : Insight) : List Insight → List Insight
  | [] => [p]
  | q :: l => if p.score < q.score then q :: insertInsightDesc p l
              else p :: q :: l

/-- Stable descending sort by score (the model's determinisation of SQLite
`ORDER BY score DESC`, whose tie order is unspecified). -/
def sortInsightsDesc : List Insight → List Insight
  | [] => []
  | p :: l => insertInsightDesc p (sortInsightsDesc l)

/-- `Database.get_insights` with a dimension filter:
`SELECT * FROM insights WHERE chat_id = ? AND insight_type = ?
ORDER BY score DESC`. -/
def get_insights (db : DB) (cid ty : String) : List Insight :=
  sortInsightsDesc
    (db.insights.filter (fun i => i.chat_id == cid && i.insight_type == ty))

/-- Result of `InsightLearner.get_content_recommendations`; the derived
`summary` sentence is presentation-only and not modelled. -/
structure Recommendations where
  topics : List (String × ℚ)
  style : Option String
  length : Option String
  repos : List (String × ℚ)
  deriving Repr, DecidableEq

/-- `InsightLearner.get_content_recommendations`: topics are the first 5
topic insights by descending score, kept only when `sample_size ≥ 2`; repos
likewise with the first 3; style and length expose the top insight's key
only when its `sample_size ≥ 3`. -/
def get_content_recommendations (db : DB) (cid : String) : Recommendations :=
  let topicInsights := get_insights db cid "topic"
  let styleInsights := get_insights db cid "style"
  let lengthInsights := get_insights db cid "length"
  let repoInsights := get_insights db cid "repo"
  { topics := ((topicInsights.take 5).filter
        (fun i => 2 ≤ i.sample_size)).map (fun i => (i.insight_key, i.score)),
    style := match styleInsights with
      | [] => none
      | i :: _ => if 3 ≤ i.sample_size then some i.insight_key else none,
    length := match lengthInsights with
      | [] => none
      | i :: _ => if 3 ≤ i.sample_size then some i.insight_key else none,
    repos := ((repoInsights.take 3).filter
        (fun i => 2 ≤ i.sample_size)).map (fun i => (i.insight_key, i.score)) }

/-- The Python dict `{i["insight_key"]: i["score"] for i in repo_insights}`
(later entries win) read back at `name`, with the neutral default 50. -/
def repoScoreLookup (repoInsights : List Insight) (name : String) : ℚ :=
  match repoInsights.reverse.find? (fun i => i.insight_key == name) with
  | some i => i.score
  | none => 50

/-- Stable insertion into a score-descending scored-candidate list. -/
def insertScoredDesc (p : String × ℚ) :
    List (String × ℚ) → List (String × ℚ)
  | [] => [p]
  | q :: l => if p.2 < q.2 then q :: insertScoredDesc p l else p :: q :: l

/-- Python `scored_repos.sort(key=..., reverse=True)`: stable descending
sort by score. -/
def sortScoredDesc : List (String × ℚ) → List (String × ℚ)
  | [] => []
  | p :: l => insertScoredDesc p (sortScoredDesc l)

/-- The penalised selection score of one candidate URL: the repo-insight
score of its short name (default 50), halved when it equals the repo of the
owner's immediately preceding post. -/
def penalizedScore (db : DB) (cid : String) (u : String) : ℚ :=
  let s := repoScoreLookup (get_insights db cid "repo") (repoShortName u)
  if ((get_last_post db cid).bind Post.repo_url) == some u then s / 2 else s

/-- `InsightLearner.get_best_repo_for_today`: none on an empty candidate
list, the sole candidate on a singleton, otherwise the head of the stable
score-descending sort of the penalised candidates. -/
def get_best_repo_for_today (db : DB) (cid : String)
    (available_repos : List String) : Option String :=
  match available_repos with
  | [] => none
  | [r] => some r
  | _ :: _ :: _ =>
    let scored := available_repos.map (fun u => (u, penalizedScore db cid u))
    (sortScoredDesc scored).head?.map (fun p => p.1)

/-!  ## The operation alphabet of the store (for invariant claims) -/

/-- Every state-mutating operation of the Store/Learner core. -/
inductive Op where
  | createPost (pid cid content : String) (repo trend reasoning : Option String)
  | markPublished (pid lid : String) (now : ℕ)
  | updateMetrics (mid pid : String) (likes comments shares impressions : ℕ)
  | updateInsight (cid ty key : String) (score : ℚ) (sample_size : ℕ)
  | addRepo (rid cid url : String)
  | removeRepo (cid url : String)
  | touchRepoIndexed (cid url : String) (now : ℕ)
  | learnFromPost (pid cid : String)
  deriving Repr

/-- Interpretation of one operation on the database. -/
def applyOp (db : DB) : Op → DB
  | .createPost pid cid content repo trend reasoning =>
      create_post db pid cid content repo trend reasoning
  | .markPublished pid lid now => mark_post_published db pid lid now
  | .updateMetrics mid pid l c s i => update_metrics db mid pid l c s i
  | .updateInsight cid ty key score n =>
      { db with insights := update_insight db.insights cid ty key score n }
  | .addRepo rid cid url => (add_repo db rid cid url).1
  | .removeRepo cid url => (remove_repo db cid url).1
  | .touchRepoIndexed cid url now => update_repo_indexed db cid url now
  | .learnFromPost pid cid => learn_from_post db pid cid

/-!  ## C5, C10: metrics replacement -/

/-- One `update_metrics` call, for talking about call sequences. -/
structure MetricsCall where
  mid : String
  pid : String
  likes : ℕ
  comments : ℕ
  shares : ℕ
  impressions : ℕ

/-- Replay a sequence of `update_metrics` calls in order. -/
def applyMetricsCalls (db : DB) (calls : List MetricsCall) : DB :=
  calls.foldl (fun d c =>
    update_metrics d c.mid c.pid c.likes c.comments c.shares c.impressions) db

/-- At most one metrics row per post id. -/
def atMostOneMetrics (db : DB) : Prop :=
  ∀ pid, (metricsFor db pid).length ≤ 1

lemma metricsFor_update_self (db : DB) (mid pid : String)
    (likes comments shares impressions : ℕ) :
    metricsFor (update_metrics db mid pid likes comments shares impressions) pid
      = [⟨mid, pid, likes, comments, shares, impressions⟩] := by
  simp only [metricsFor, update_metrics, List.filter_append, List.filter_filter]
  have h1 : db.metrics.filter
      (fun m => (m.post_id == pid) && !(m.post_id == pid)) = [] := by
    apply List.filter_eq_nil_iff.mpr
    intro m _
    simp
  rw [h1]
  simp

lemma metricsFor_update_other (db : DB) (mid pid q : String)
    (likes comments shares impressions : ℕ) (h : q ≠ pid) :
    metricsFor (update_metrics db mid pid likes comments shares impressions) q
      = metricsFor db q := by
  simp only [metricsFor, update_metrics, List.filter_append, List.filter_filter]
  have h1 : List.filter (fun m => (m.post_id == q) && !(m.post_id == pid))
      db.metrics = List.filter (fun m => m.post_id == q) db.metrics := by
    apply List.filter_congr
    intro m _
    by_cases hm : m.post_id = q
    · simp [hm, h]
    · simp [hm]
  rw [h1]
  have h2 : List.filter (fun m => m.post_id == q)
      [(⟨mid, pid, likes, comments, shares, impressions⟩ : MetricsRow)]
        = [] := by
    simp [Ne.symm h]
  rw [h2, List.append_nil]

lemma applyOp_metrics_unchanged (db : DB) (op : Op)
    (h : ∀ mid pid likes comments shares impressions,
      op ≠ .updateMetrics mid pid likes comments shares impressions) :
    (applyOp db op).metrics = db.metrics := by
  cases op with
  | createPost pid cid content repo trend reasoning => rfl
  | markPublished pid lid now => rfl
  | updateMetrics mid pid l c s i => exact absurd rfl (h mid pid l c s i)
  | updateInsight cid ty key score n => rfl
  | addRepo rid cid url =>
    show (add_repo db rid cid url).1.metrics = db.metrics
    rw [add_repo]
    split
    · rfl
    · split <;> rfl
  | removeRepo cid url =>
    show (remove_repo db cid url).1.metrics = db.metrics
    rw [remove_repo]
    split <;> rfl
  | touchRepoIndexed cid url now => rfl
  | learnFromPost pid cid =>
    show (learn_from_post db pid cid).metrics = db.metrics
    rw [learn_from_post]
    split <;> rfl

/-- C5: a `replace_metrics` call leaves exactly the one new row for its post
id and does not touch other posts' rows; after any call sequence ending in a
call for a post, that post's rows are exactly the last call's snapshot; the
empty store has no duplicate rows and every operation preserves the at most
one metrics row per post invariant. -/
theorem replace_metrics_spec (db : DB) (mid pid q : String)
    (likes comments shares impressions : ℕ)
    (cs : List MetricsCall) (c : MetricsCall) :
    (metricsFor (update_metrics db mid pid likes comments shares impressions)
        pid = [⟨mid, pid, likes, comments, shares, impressions⟩]) ∧
    (q ≠ pid →
      metricsFor (update_metrics db mid pid likes comments shares impressions)
        q = metricsFor db q) ∧
    (metricsFor (applyMetricsCalls db (cs ++ [c])) c.pid
      = [⟨c.mid, c.pid, c.likes, c.comments, c.shares, c.impressions⟩]) ∧
    atMostOneMetrics emptyDB ∧
    (atMostOneMetrics db → ∀ op, atMostOneMetrics (applyOp db op)) := by
  refine ⟨metricsFor_update_self db mid pid likes comments shares impressions,
    fun h => metricsFor_update_other db mid pid q likes comments shares
      impressions h, ?_, ?_, ?_⟩
  · rw [applyMetricsCalls, List.foldl_append]
    exact metricsFor_update_self _ c.mid c.pid c.likes c.comments c.shares
      c.impressions
  · intro r
    simp [metricsFor, emptyDB]
  · intro h op
    cases op with
    | updateMetrics mid' pid' l' c' s' i' =>
      intro r
      by_cases hr : r = pid'
      · subst hr
        rw [show applyOp db (.updateMetrics mid' r l' c' s' i')
            = update_metrics db mid' r l' c' s' i' from rfl,
          metricsFor_update_self]
        simp
      · rw [show applyOp db (.updateMetrics mid' pid' l' c' s' i')
            = update_metrics db mid' pid' l' c' s' i' from rfl,
          metricsFor_update_other db mid' pid' r l' c' s' i' hr]
        exact h r
    | createPost pid' cid content repo trend reasoning =>
      intro r
      show (List.filter _ (applyOp db _).metrics).length ≤ 1
      rw [applyOp_metrics_unchanged db _ (by intro _ _ _ _ _ _ hh; cases hh)]
      exact h r
    | markPublished pid' lid now =>
      intro r
      show (List.filter _ (applyOp db _).metrics).length ≤ 1
      rw [applyOp_metrics_unchanged db _ (by intro _ _ _ _ _ _ hh; cases hh)]
      exact h r
    | updateInsight cid ty key score n =>
      intro r
      show (List.filter _ (applyOp db _).metrics).length ≤ 1
      rw [applyOp_metrics_unchanged db _ (by intro _ _ _ _ _ _ hh; cases hh)]
      exact h r
    | addRepo rid cid url =>
      intro r
      show (List.filter _ (applyOp db _).metrics).length ≤ 1
      rw [applyOp_metrics_unchanged db _ (by intro _ _ _ _ _ _ hh; cases hh)]
      exact h r
    | removeRepo cid url =>
      intro r
      show (List.filter _ (applyOp db _).metrics).length ≤ 1
      rw [applyOp_metrics_unchanged db _ (by intro _ _ _ _ _ _ hh; cases hh)]
      exact h r
    | touchRepoIndexed cid url now =>
      intro r
      show (List.filter _ (applyOp db _).metrics).length ≤ 1
      rw [applyOp_metrics_unchanged db _ (by intro _ _ _ _ _ _ hh; cases hh)]
      exact h r
    | learnFromPost pid' cid =>
      intro r
      show (List.filter _ (applyOp db _).metrics).length ≤ 1
      rw [applyOp_metrics_unchanged db _ (by intro _ _ _ _ _ _ hh; cases hh)]
      exact h r

/-- Witness for C5: replacing metrics of `p1` leaves `p2`'s rows alone. -/
theorem replace_metrics_spec_witness :
    metricsFor (update_metrics emptyDB "m1" "p1" 1 2 3 4) "p2"
      = metricsFor emptyDB "p2" :=
  (replace_metrics_spec emptyDB "m1" "p1" "p2" 1 2 3 4 []
    ⟨"m0", "p0", 0, 0, 0, 0⟩).2.1 (by decide)

/-- C10: `replace_metrics` performs no existence check on the post: even
with no such post, the snapshot is inserted and `get_metrics` returns it
(and still no post exists afterwards). -/
theorem replace_metrics_no_post_validation (db : DB) (mid pid : String)
    (likes comments shares impressions : ℕ)
    (h : get_post db pid = none) :
    get_metrics (update_metrics db mid pid likes comments shares impressions)
        pid = some ⟨mid, pid, likes, comments, shares, impressions⟩ ∧
    get_post (update_metrics db mid pid likes comments shares impressions)
        pid = none := by
  constructor
  · show ((db.metrics.filter (fun m => !(m.post_id == pid))) ++
      [(⟨mid, pid, likes, comments, shares, impressions⟩ : MetricsRow)]).find?
        (fun m => m.post_id == pid) = _
    rw [List.find?_append]
    have h1 : (db.metrics.filter (fun m => !(m.post_id == pid))).find?
        (fun m => m.post_id == pid) = none := by
      apply List.find?_eq_none.mpr
      intro m hm
      have := (List.mem_filter.mp hm).2
      simp at this
      simp [this]
    rw [h1]
    simp
  · exact h

/-- Witness for C10: writing metrics for an id with no post at all. -/
theorem replace_metrics_no_post_validation_witness :
    get_metrics (update_metrics emptyDB "m1" "ghost" 5 6 7 8) "ghost"
      = some ⟨"m1", "ghost", 5, 6, 7, 8⟩ :=
  (replace_metrics_no_post_validation emptyDB "m1" "ghost" 5 6 7 8 rfl).1

/-!  ## C6: publish-field lifecycle -/

/-- Whether an operation is a `mark_post_published` aimed at this post id. -/
def isPublishOf (op : Op) (pid : String) : Bool :=
  match op with
  | .markPublished q _ _ => q == pid
  | _ => false

lemma get_post_of_posts_eq {db db' : DB} (h : db'.posts = db.posts)
    (pid : String) : get_post db' pid = get_post db pid := by
  rw [get_post, get_post, h]

lemma get_post_create_fresh (db : DB) (pid cid content : String)
    (repo trend reasoning : Option String) (h : get_post db pid = none) :
    get_post (create_post db pid cid content repo trend reasoning) pid
      = some ⟨pid, cid, repo, content, trend, none, reasoning, none⟩ := by
  have h' : db.posts.find? (fun p => p.id == pid) = none := h
  show (db.posts ++
      [(⟨pid, cid, repo, content, trend, none, reasoning, none⟩ : Post)]).find?
    (fun p => p.id == pid) = _
  rw [List.find?_append, h']
  simp

lemma get_post_mark (db : DB) (pid lid : String) (now : ℕ) (p : Post)
    (h : get_post db pid = some p) :
    get_post (mark_post_published db pid lid now) pid
      = some { p with linkedin_post_id := some lid, posted_at := some now } := by
  have h' : db.posts.find? (fun q => q.id == pid) = some p := h
  have hp : (p.id == pid) = true := by
    have := List.find?_some h'
    simpa using this
  show (db.posts.map (fun q => if q.id == pid then
      { q with linkedin_post_id := some lid, posted_at := some now }
    else q)).find? (fun q => q.id == pid) = _
  rw [List.find?_map]
  have hcomp : ((fun q : Post => q.id == pid) ∘ (fun q : Post =>
      if q.id == pid then
        { q with linkedin_post_id := some lid, posted_at := some now }
      else q)) = fun q : Post => q.id == pid := by
    funext q
    by_cases hq : (q.id == pid) = true
    · simp only [Function.comp_apply, if_pos hq]
    · simp only [Function.comp_apply, if_neg hq]
  rw [hcomp, h']
  show some (if (p.id == pid) = true then
      { p with linkedin_post_id := some lid, posted_at := some now }
    else p) = _
  rw [if_pos hp]

lemma get_post_mark_other (db : DB) (pid q lid : String) (now : ℕ) (p : Post)
    (h : get_post db pid = some p) (hq : q ≠ pid) :
    get_post (mark_post_published db q lid now) pid = some p := by
  have h' : db.posts.find? (fun r => r.id == pid) = some p := h
  have hp : (p.id == pid) = true := by
    have := List.find?_some h'
    simpa using this
  show (db.posts.map (fun r => if r.id == q then
      { r with linkedin_post_id := some lid, posted_at := some now }
    else r)).find? (fun r => r.id == pid) = _
  rw [List.find?_map]
  have hcomp : ((fun r : Post => r.id == pid) ∘ (fun r : Post =>
      if r.id == q then
        { r with linkedin_post_id := some lid, posted_at := some now }
      else r)) = fun r : Post => r.id == pid := by
    funext r
    by_cases hr : (r.id == q) = true
    · simp only [Function.comp_apply, if_pos hr]
    · simp only [Function.comp_apply, if_neg hr]
  rw [hcomp, h']
  have hpq : (p.id == q) = false := by
    have hpid : p.id = pid := by simpa using hp
    simp [hpid, Ne.symm hq]
  show some (if (p.id == q) = true then
      { p with linkedin_post_id := some lid, posted_at := some now }
    else p) = _
  rw [if_neg (by simp [hpq])]

/-- C6 counterexample: after publishing post `p1` with external id `L1`, a
second `mark_post_published` call overwrites both the external id (to `L2`)
and the publication timestamp — the fields are not immutable once set. -/
theorem publish_immutability_cex :
    (get_post (mark_post_published
        (create_post emptyDB "p1" "u1" "hello" none none none) "p1" "L1" 10)
      "p1").map Post.linkedin_post_id = some (some "L1") ∧
    (get_post (mark_post_published (mark_post_published
        (create_post emptyDB "p1" "u1" "hello" none none none) "p1" "L1" 10)
      "p1" "L2" 20) "p1").map Post.linkedin_post_id = some (some "L2") ∧
    (get_post (mark_post_published (mark_post_published
        (create_post emptyDB "p1" "u1" "hello" none none none) "p1" "L1" 10)
      "p1" "L2" 20) "p1").map Post.posted_at = some (some 20) ∧
    (some (some "L1") : Option (Option String)) ≠ some (some "L2") := by
  refine ⟨rfl, rfl, rfl, by decide⟩

/-- C6 amended: `posted_at` and `linkedin_post_id` are unset at creation,
`mark_post_published` sets both, and no operation other than a
`mark_post_published` aimed at the same post id changes them afterwards (a
repeated `mark_post_published` on the same id overwrites them). -/
theorem publish_fields_amended (db : DB) (op : Op)
    (pid cid content lid : String) (repo trend reasoning : Option String)
    (now : ℕ) (p : Post) :
    (get_post db pid = none →
      get_post (create_post db pid cid content repo trend reasoning) pid
        = some ⟨pid, cid, repo, content, trend, none, reasoning, none⟩) ∧
    (get_post db pid = some p →
      get_post (mark_post_published db pid lid now) pid
        = some { p with linkedin_post_id := some lid,
                        posted_at := some now }) ∧
    (get_post db pid = some p → isPublishOf op pid = false →
      (get_post (applyOp db op) pid).map
          (fun q => (q.linkedin_post_id, q.posted_at))
        = some (p.linkedin_post_id, p.posted_at)) := by
  refine ⟨get_post_create_fresh db pid cid content repo trend reasoning,
    get_post_mark db pid lid now p, ?_⟩
  intro h hop
  cases op with
  | createPost pid' cid' content' repo' trend' reasoning' =>
    have h' : db.posts.find? (fun q => q.id == pid) = some p := h
    have : get_post (applyOp db (.createPost pid' cid' content' repo' trend'
        reasoning')) pid = some p := by
      show (db.posts ++ [(⟨pid', cid', repo', content', trend', none,
          reasoning', none⟩ : Post)]).find? (fun q => q.id == pid) = some p
      rw [List.find?_append, h']
      rfl
    rw [this]
    rfl
  | markPublished q' lid' now' =>
    have hq : q' ≠ pid := by
      have : (q' == pid) = false := hop
      simpa using this
    have hres : get_post (applyOp db (Op.markPublished q' lid' now')) pid
        = some p := get_post_mark_other db pid q' lid' now' p h hq
    rw [hres]
    rfl
  | updateMetrics mid' pid' l' c' s' i' =>
    have hposts : (applyOp db (Op.updateMetrics mid' pid' l' c' s' i')).posts
        = db.posts := rfl
    rw [get_post_of_posts_eq hposts, h]
    rfl
  | updateInsight cid' ty key score n =>
    have hposts : (applyOp db (Op.updateInsight cid' ty key score n)).posts
        = db.posts := rfl
    rw [get_post_of_posts_eq hposts, h]
    rfl
  | addRepo rid cid' url =>
    have hposts : (applyOp db (.addRepo rid cid' url)).posts = db.posts := by
      show (add_repo db rid cid' url).1.posts = db.posts
      rw [add_repo]
      split
      · rfl
      · split <;> rfl
    rw [get_post_of_posts_eq hposts, h]
    rfl
  | removeRepo cid' url =>
    have hposts : (applyOp db (.removeRepo cid' url)).posts = db.posts := by
      show (remove_repo db cid' url).1.posts = db.posts
      rw [remove_repo]
      split <;> rfl
    rw [get_post_of_posts_eq hposts, h]
    rfl
  | touchRepoIndexed cid' url now' =>
    have hposts : (applyOp db (Op.touchRepoIndexed cid' url now')).posts
        = db.posts := rfl
    rw [get_post_of_posts_eq hposts, h]
    rfl
  | learnFromPost pid' cid' =>
    have hposts : (applyOp db (.learnFromPost pid' cid')).posts = db.posts := by
      show (learn_from_post db pid' cid').posts = db.posts
      rw [learn_from_post]
      split <;> rfl
    rw [get_post_of_posts_eq hposts, h]
    rfl

/-- Witness for the amended C6: a freshly created post has neither a
publication timestamp nor an external id. -/
theorem publish_fields_amended_witness :
    get_post (create_post emptyDB "p1" "u1" "hello" none none none) "p1"
      = some ⟨"p1", "u1", none, "hello", none, none, none, none⟩ :=
  (publish_fields_amended emptyDB (Op.removeRepo "u1" "x") "p1" "u1" "hello"
    "L1" none none none 0
    ⟨"p1", "u1", none, "hello", none, none, none, none⟩).1 rfl

/-!  ## C7, C9: repo registration -/

/-- `SELECT COUNT(*) FROM user_repos WHERE chat_id = ?`. -/
def countRepos (db : DB) (cid : String) : ℕ :=
  (db.user_repos.filter (fun r => r.chat_id == cid)).length

/-- Whether `(owner, url)` is already registered (the
`UNIQUE(chat_id, repo_url)` conflict that raises `IntegrityError`). -/
def repoRegistered (db : DB) (cid url : String) : Bool :=
  db.user_repos.any (fun r => r.chat_id == cid && r.repo_url == url)

lemma add_repo_full (db : DB) (rid cid url : String)
    (h : 5 ≤ countRepos db cid) :
    add_repo db rid cid url = (db, false, capacityMessage) := by
  rw [add_repo,
    if_pos (show 5 ≤ (db.user_repos.filter (fun r => r.chat_id == cid)).length
      from h)]

lemma add_repo_dup (db : DB) (rid cid url : String)
    (h : countRepos db cid < 5) (hdup : repoRegistered db cid url = true) :
    add_repo db rid cid url = (db, false, duplicateMessage) := by
  rw [add_repo,
    if_neg (show ¬ 5 ≤ (db.user_repos.filter
        (fun r => r.chat_id == cid)).length from Nat.not_le.mpr h),
    if_pos (show (db.user_repos.any
        (fun r => r.chat_id == cid && r.repo_url == url)) = true from hdup)]

lemma add_repo_ok (db : DB) (rid cid url : String)
    (h : countRepos db cid < 5) (hdup : repoRegistered db cid url = false) :
    add_repo db rid cid url
      = ({ db with user_repos := db.user_repos ++ [⟨rid, cid, url, none⟩] },
          true, "Added repo: " ++ url) := by
  have hd : ¬ ((db.user_repos.any
      (fun r => r.chat_id == cid && r.repo_url == url)) = true) := by
    have : repoRegistered db cid url ≠ true := by simp [hdup]
    exact this
  rw [add_repo,
    if_neg (show ¬ 5 ≤ (db.user_repos.filter
        (fun r => r.chat_id == cid)).length from Nat.not_le.mpr h),
    if_neg hd]

/-- The database after five successful `add_repo` calls for owner `u1`. -/
def fiveRepoDB : DB :=
  (add_repo (add_repo (add_repo (add_repo (add_repo emptyDB
    "r1" "u1" "a").1 "r2" "u1" "b").1 "r3" "u1" "c").1 "r4" "u1" "d").1
    "r5" "u1" "e").1

/-- C7: `add_repo` fails with the capacity message at five registrations,
fails with the duplicate message on a registered `(owner, url)` pair below
capacity, inserts and succeeds otherwise; concretely, five adds for `u1`
succeed, the sixth fails with `ok = false`, and an add by `u2` still
succeeds. -/
theorem add_repo_spec (db : DB) (rid cid url cid2 : String) :
    (5 ≤ countRepos db cid →
      add_repo db rid cid url = (db, false, capacityMessage)) ∧
    (countRepos db cid < 5 → repoRegistered db cid url = true →
      add_repo db rid cid url = (db, false, duplicateMessage)) ∧
    (countRepos db cid < 5 → repoRegistered db cid url = false →
      add_repo db rid cid url
        = ({ db with user_repos := db.user_repos ++ [⟨rid, cid, url, none⟩] },
            true, "Added repo: " ++ url) ∧
      countRepos (add_repo db rid cid url).1 cid = countRepos db cid + 1) ∧
    (cid2 ≠ cid → countRepos (add_repo db rid cid url).1 cid2
      = countRepos db cid2) ∧
    ((add_repo emptyDB "r1" "u1" "a").2.1 = true ∧
     (add_repo (add_repo emptyDB "r1" "u1" "a").1 "r2" "u1" "b").2.1 = true ∧
     (add_repo (add_repo (add_repo emptyDB "r1" "u1" "a").1 "r2" "u1"
        "b").1 "r3" "u1" "c").2.1 = true ∧
     (add_repo (add_repo (add_repo (add_repo emptyDB "r1" "u1" "a").1 "r2"
        "u1" "b").1 "r3" "u1" "c").1 "r4" "u1" "d").2.1 = true ∧
     (add_repo (add_repo (add_repo (add_repo (add_repo emptyDB "r1" "u1"
        "a").1 "r2" "u1" "b").1 "r3" "u1" "c").1 "r4" "u1" "d").1 "r5" "u1"
        "e").2.1 = true ∧
     (add_repo fiveRepoDB "r6" "u1" "f").2 = (false, capacityMessage) ∧
     (add_repo fiveRepoDB "r6" "u2" "f").2.1 = true) := by
  refine ⟨add_repo_full db rid cid url, add_repo_dup db rid cid url,
    fun h hdup => ⟨add_repo_ok db rid cid url h hdup, ?_⟩, ?_, ?_⟩
  · rw [add_repo_ok db rid cid url h hdup]
    simp only [countRepos, List.filter_append]
    simp [List.length_append]
  · intro h2
    rw [add_repo]
    split
    · rfl
    · split
      · rfl
      · simp only [countRepos, List.filter_append]
        have : List.filter (fun r => r.chat_id == cid2)
            [(⟨rid, cid, url, none⟩ : UserRepo)] = [] := by
          simp [Ne.symm h2]
        rw [this, List.append_nil]
  · exact ⟨by decide, by decide, by decide, by decide, by decide,
      by decide, by decide⟩

/-- Witness for C7: the sixth add for `u1` hits the capacity branch. -/
theorem add_repo_spec_witness :
    add_repo fiveRepoDB "r6" "u1" "f" = (fiveRepoDB, false, capacityMessage) :=
  (add_repo_spec fiveRepoDB "r6" "u1" "f" "u2").1 (by decide)

/-- C9: the capacity check precedes the duplicate check — a full owner gets
the capacity failure even for an already-registered url, and the duplicate
message is only ever produced for owners below the 5-repo cap. -/
theorem add_repo_capacity_precedence (db : DB) (rid cid url : String) :
    (5 ≤ countRepos db cid → repoRegistered db cid url = true →
      add_repo db rid cid url = (db, false, capacityMessage)) ∧
    ((add_repo db rid cid url).2.2 = duplicateMessage →
      countRepos db cid < 5) := by
  constructor
  · intro h _
    exact add_repo_full db rid cid url h
  · intro h
    by_cases hc : 5 ≤ countRepos db cid
    · rw [add_repo_full db rid cid url hc] at h
      have : capacityMessage ≠ duplicateMessage := by decide
      exact absurd h this
    · exact Nat.not_le.mp hc

/-- Witness for C9: `u1` is at capacity and `"a"` is already registered,
yet the result is the capacity failure. -/
theorem add_repo_capacity_precedence_witness :
    add_repo fiveRepoDB "r9" "u1" "a" = (fiveRepoDB, false, capacityMessage) :=
  (add_repo_capacity_precedence fiveRepoDB "r9" "u1" "a").1 (by decide)
    (by decide)

/-!  ## C3: repository selection -/

/-- Selection rule in the words of the spec: the candidate with the highest
(penalised) score, the earliest in input order on ties.  Stated directly as
a fold for comparison with the sort-then-head implementation. -/
def specFirstMax : List (String × ℚ) → Option (String × ℚ)
  | [] => none
  | p :: l =>
    match specFirstMax l with
    | none => some p
    | some q => if q.2 > p.2 then some q else some p

lemma specFirstMax_eq_none (l : List (String × ℚ)) :
    specFirstMax l = none ↔ l = [] := by
  cases l with
  | nil => simp [specFirstMax]
  | cons a l =>
    rw [specFirstMax]
    cases specFirstMax l <;> simp
    split <;> simp

lemma sortScoredDesc_head (l : List (String × ℚ)) :
    (sortScoredDesc l).head? = specFirstMax l := by
  induction l with
  | nil => rfl
  | cons p l ih =>
    rw [sortScoredDesc, specFirstMax]
    cases hs : sortScoredDesc l with
    | nil =>
      have hn : specFirstMax l = none := by rw [← ih, hs]; rfl
      rw [hn]
      rfl
    | cons q t =>
      have hq : specFirstMax l = some q := by rw [← ih, hs]; rfl
      rw [hq]
      show (insertScoredDesc p (q :: t)).head?
        = if q.2 > p.2 then some q else some p
      rw [insertScoredDesc]
      by_cases hpq : q.2 > p.2
      · rw [if_pos (show p.2 < q.2 from hpq), if_pos hpq]
        rfl
      · rw [if_neg (show ¬ p.2 < q.2 from hpq), if_neg hpq]
        rfl

lemma specFirstMax_mem_max (l : List (String × ℚ)) (p : String × ℚ)
    (h : specFirstMax l = some p) :
    p ∈ l ∧ ∀ q ∈ l, q.2 ≤ p.2 := by
  induction l generalizing p with
  | nil => cases h
  | cons a l ih =>
    rw [specFirstMax] at h
    cases hs : specFirstMax l with
    | none =>
      rw [hs] at h
      cases h
      have hl : l = [] := (specFirstMax_eq_none l).mp hs
      subst hl
      exact ⟨List.mem_singleton_self a, by
        intro q hq
        rw [List.mem_singleton] at hq
        rw [hq]⟩
    | some b =>
      rw [hs] at h
      have h' : (if b.2 > a.2 then some b else some a) = some p := h
      obtain ⟨hbmem, hble⟩ := ih b hs
      by_cases hab : b.2 > a.2
      · rw [if_pos hab] at h'
        cases h'
        refine ⟨List.mem_cons_of_mem _ hbmem, fun q hq => ?_⟩
        rcases List.mem_cons.mp hq with hqa | hql
        · rw [hqa]
          exact le_of_lt hab
        · exact hble q hql
      · rw [if_neg hab] at h'
        cases h'
        refine ⟨List.mem_cons_self _ _, fun q hq => ?_⟩
        rcases List.mem_cons.mp hq with hqa | hql
        · rw [hqa]
        · exact (hble q hql).trans (not_lt.mp hab)

/-- A store whose owner `u1` has equal repo insight scores 80 for `repoA`
and `repoB` and whose last post was about `x/repoA`. -/
def bestRepoScenarioDB : DB :=
  { posts := [⟨"p1", "u1", some "x/repoA", "body", none, none, none, none⟩],
    metrics := [],
    insights := [⟨"u1", "repo", "repoA", 80, 1⟩,
                 ⟨"u1", "repo", "repoB", 80, 1⟩],
    user_repos := [] }

/-- C3: no selection from an empty list; the sole candidate from a
singleton; otherwise the first candidate (in input order) of maximal
penalised score — the short-name insight score, defaulting to 50, halved
when the candidate equals the previous post's repo; with `repoA` and
`repoB` both at 80 and the last post about `repoA`, `repoB` wins. -/
theorem get_best_repo_spec (db : DB) (cid u r : String)
    (available : List String) :
    get_best_repo_for_today db cid [] = none ∧
    get_best_repo_for_today db cid [u] = some u ∧
    (2 ≤ available.length →
      get_best_repo_for_today db cid available
        = (specFirstMax (available.map
            (fun w => (w, penalizedScore db cid w)))).map Prod.fst) ∧
    (2 ≤ available.length →
      get_best_repo_for_today db cid available = some r →
      r ∈ available ∧
      ∀ w ∈ available, penalizedScore db cid w ≤ penalizedScore db cid r) ∧
    (get_best_repo_for_today bestRepoScenarioDB "u1" ["x/repoA", "x/repoB"]
      = some "x/repoB") := by
  have general : 2 ≤ available.length →
      get_best_repo_for_today db cid available
        = (specFirstMax (available.map
            (fun w => (w, penalizedScore db cid w)))).map Prod.fst := by
    intro hlen
    match available, hlen with
    | x :: y :: t, _ =>
      show ((sortScoredDesc ((x :: y :: t).map
          (fun w => (w, penalizedScore db cid w)))).head?).map Prod.fst = _
      rw [sortScoredDesc_head]
  refine ⟨rfl, rfl, general, ?_, ?_⟩
  · intro hlen hsome
    rw [general hlen] at hsome
    cases hm : specFirstMax (available.map
        (fun w => (w, penalizedScore db cid w))) with
    | none => rw [hm] at hsome; cases hsome
    | some pr =>
      rw [hm] at hsome
      have hr : pr.1 = r := by simpa using hsome
      obtain ⟨hmem, hmax⟩ := specFirstMax_mem_max _ pr hm
      obtain ⟨w, hw, hwpr⟩ := List.mem_map.mp hmem
      constructor
      · rw [← hr, ← hwpr]
        exact hw
      · intro v hv
        have hvmem : (v, penalizedScore db cid v) ∈ available.map
            (fun w => (w, penalizedScore db cid w)) :=
          List.mem_map_of_mem _ hv
        have := hmax _ hvmem
        have hpr2 : pr.2 = penalizedScore db cid r := by
          rw [← hwpr] at hr ⊢
          simp only at hr ⊢
          rw [hr]
        rw [hpr2] at this
        exact this
  · have hA : penalizedScore bestRepoScenarioDB "u1" "x/repoA" = 40 := by
      show (if ((get_last_post bestRepoScenarioDB "u1").bind Post.repo_url)
            == some "x/repoA" then
          repoScoreLookup (get_insights bestRepoScenarioDB "u1" "repo")
            (repoShortName "x/repoA") / 2
        else repoScoreLookup (get_insights bestRepoScenarioDB "u1" "repo")
            (repoShortName "x/repoA")) = 40
      have h80 : repoScoreLookup (get_insights bestRepoScenarioDB "u1" "repo")
          (repoShortName "x/repoA") = 80 := by decide
      have hc : (((get_last_post bestRepoScenarioDB "u1").bind Post.repo_url)
          == some "x/repoA") = true := by decide
      rw [if_pos hc, h80]
      norm_num
    have hB : penalizedScore bestRepoScenarioDB "u1" "x/repoB" = 80 := by
      show (if ((get_last_post bestRepoScenarioDB "u1").bind Post.repo_url)
            == some "x/repoB" then
          repoScoreLookup (get_insights bestRepoScenarioDB "u1" "repo")
            (repoShortName "x/repoB") / 2
        else repoScoreLookup (get_insights bestRepoScenarioDB "u1" "repo")
            (repoShortName "x/repoB")) = 80
      have h80 : repoScoreLookup (get_insights bestRepoScenarioDB "u1" "repo")
          (repoShortName "x/repoB") = 80 := by decide
      have hc : (((get_last_post bestRepoScenarioDB "u1").bind Post.repo_url)
          == some "x/repoB") = false := by decide
      rw [if_neg (by simp [hc]), h80]
    show ((sortScoredDesc
        [("x/repoA", penalizedScore bestRepoScenarioDB "u1" "x/repoA"),
         ("x/repoB", penalizedScore bestRepoScenarioDB "u1" "x/repoB")]).head?).map
      Prod.fst = some "x/repoB"
    rw [hA, hB]
    decide

/-- Witness for C3: the two-candidate case selects a maximal candidate. -/
theorem get_best_repo_spec_witness :
    get_best_repo_for_today bestRepoScenarioDB "u1" ["x/repoA", "x/repoB"]
      = (specFirstMax (["x/repoA", "x/repoB"].map
          (fun w => (w, penalizedScore bestRepoScenarioDB "u1" w)))).map
        Prod.fst :=
  (get_best_repo_spec bestRepoScenarioDB "u1" "x" "x"
    ["x/repoA", "x/repoB"]).2.2.1 (by decide)

/-!  ## C4: content recommendations -/

lemma insertInsightDesc_perm (p : Insight) (l : List Insight) :
    (insertInsightDesc p l).Perm (p :: l) := by
  induction l with
  | nil => rfl
  | cons q t ih =>
    rw [insertInsightDesc]
    by_cases h : p.score < q.score
    · rw [if_pos h]
      exact (ih.cons q).trans (List.Perm.swap p q t)
    · rw [if_neg h]

lemma sortInsightsDesc_perm (l : List Insight) :
    (sortInsightsDesc l).Perm l := by
  induction l with
  | nil => rfl
  | cons p t ih =>
    rw [sortInsightsDesc]
    exact (insertInsightDesc_perm p (sortInsightsDesc t)).trans (ih.cons p)

lemma insertInsightDesc_pairwise (p : Insight) (l : List Insight)
    (h : l.Pairwise (fun a b => b.score ≤ a.score)) :
    (insertInsightDesc p l).Pairwise (fun a b => b.score ≤ a.score) := by
  induction l with
  | nil => simp [insertInsightDesc]
  | cons q t ih =>
    rw [List.pairwise_cons] at h
    rw [insertInsightDesc]
    by_cases hpq : p.score < q.score
    · rw [if_pos hpq]
      rw [List.pairwise_cons]
      constructor
      · intro b hb
        have hb' : b ∈ p :: t := (insertInsightDesc_perm p t).mem_iff.mp hb
        rcases List.mem_cons.mp hb' with hbp | hbt
        · rw [hbp]
          exact le_of_lt hpq
        · exact h.1 b hbt
      · exact ih h.2
    · rw [if_neg hpq]
      have hqp : q.score ≤ p.score := not_lt.mp hpq
      rw [List.pairwise_cons]
      constructor
      · intro b hb
        rcases List.mem_cons.mp hb with hbq | hbt
        · rw [hbq]
          exact hqp
        · exact (h.1 b hbt).trans hqp
      · rw [List.pairwise_cons]
        exact h

lemma sortInsightsDesc_pairwise (l : List Insight) :
    (sortInsightsDesc l).Pairwise (fun a b => b.score ≤ a.score) := by
  induction l with
  | nil => simp [sortInsightsDesc]
  | cons p t ih =>
    rw [sortInsightsDesc]
    exact insertInsightDesc_pairwise p (sortInsightsDesc t) ih

lemma mem_get_insights (db : DB) (cid ty : String) (i : Insight) :
    i ∈ get_insights db cid ty
      ↔ i ∈ db.insights ∧ i.chat_id = cid ∧ i.insight_type = ty := by
  rw [get_insights, (sortInsightsDesc_perm _).mem_iff, List.mem_filter]
  simp [and_assoc]

lemma head_get_insights_max (db : DB) (cid ty : String) (i : Insight)
    (h : (get_insights db cid ty).head? = some i) :
    ∀ j ∈ db.insights, j.chat_id = cid → j.insight_type = ty →
      j.score ≤ i.score := by
  intro j hj hjc hjt
  have hjmem : j ∈ get_insights db cid ty :=
    (mem_get_insights db cid ty j).mpr ⟨hj, hjc, hjt⟩
  have hpw := sortInsightsDesc_pairwise
    (db.insights.filter (fun k => k.chat_id == cid && k.insight_type == ty))
  cases hl : get_insights db cid ty with
  | nil => rw [hl] at hjmem; cases hjmem
  | cons i' rest =>
    have hi : i' = i := by
      rw [hl] at h
      simpa using h
    rw [get_insights] at hl
    rw [hl] at hpw
    rw [get_insights, hl] at hjmem
    rcases List.mem_cons.mp hjmem with hji | hjr
    · rw [hji, hi]
    · rw [← hi]
      exact (List.pairwise_cons.mp hpw).1 j hjr

/-- The three properties of a take-then-filter recommendation list. -/
lemma recommendation_list_spec (db : DB) (cid ty : String) (n : ℕ) :
    ((((get_insights db cid ty).take n).filter
        (fun i => 2 ≤ i.sample_size)).map
      (fun i => (i.insight_key, i.score))).length ≤ n ∧
    ((((get_insights db cid ty).take n).filter
        (fun i => 2 ≤ i.sample_size)).map
      (fun i => (i.insight_key, i.score))).Pairwise
        (fun a b => b.2 ≤ a.2) ∧
    ∀ p ∈ (((get_insights db cid ty).take n).filter
        (fun i => 2 ≤ i.sample_size)).map (fun i => (i.insight_key, i.score)),
      ∃ i ∈ db.insights, i.chat_id = cid ∧ i.insight_type = ty ∧
        2 ≤ i.sample_size ∧ i.insight_key = p.1 ∧ i.score = p.2 := by
  refine ⟨?_, ?_, ?_⟩
  · rw [List.length_map]
    exact le_trans ((get_insights db cid ty).take n |>.length_filter_le _)
      (by simp)
  · have h1 : ((get_insights db cid ty).take n).Pairwise
        (fun a b => b.score ≤ a.score) :=
      List.Pairwise.sublist ((get_insights db cid ty).take_sublist n)
        (sortInsightsDesc_pairwise _)
    have h2 : (((get_insights db cid ty).take n).filter
        (fun i => 2 ≤ i.sample_size)).Pairwise
          (fun a b => b.score ≤ a.score) :=
      List.Pairwise.sublist (List.filter_sublist _) h1
    exact h2.map _ (fun a b hab => hab)
  · intro p hp
    obtain ⟨i, hi, hip⟩ := List.mem_map.mp hp
    have hi2 : 2 ≤ i.sample_size := by
      have := (List.mem_filter.mp hi).2
      simpa using this
    have hitake : i ∈ (get_insights db cid ty).take n :=
      (List.mem_filter.mp hi).1
    have himem : i ∈ get_insights db cid ty :=
      ((get_insights db cid ty).take_sublist n).mem hitake
    obtain ⟨hdb, hcid, hty⟩ := (mem_get_insights db cid ty i).mp himem
    exact ⟨i, hdb, hcid, hty, hi2, by rw [← hip], by rw [← hip]⟩

/-- A store used to witness the recommendation properties. -/
def recsScenarioDB : DB :=
  { posts := [], metrics := [],
    insights := [⟨"u1", "style", "with_code", 70, 3⟩,
                 ⟨"u1", "style", "no_code", 50, 3⟩,
                 ⟨"u1", "topic", "ai", 90, 2⟩],
    user_repos := [] }

/-- C4: the recommendations expose as `topics` the `sample_size ≥ 2`
entries among the five highest-scoring topic insights (at most 5, in
descending score order, all drawn from the owner's stored topic insights
with `sample_size ≥ 2`), as `repos` the same with the three highest-scoring
repo insights, and a `style` (resp. `length`) key exactly when the
top-scoring style (resp. length) insight has `sample_size ≥ 3`, in which
case it is that insight's key. -/
theorem get_content_recommendations_spec (db : DB) (cid : String) :
    (get_content_recommendations db cid).topics
      = (((get_insights db cid "topic").take 5).filter
          (fun i => 2 ≤ i.sample_size)).map (fun i => (i.insight_key, i.score)) ∧
    (get_content_recommendations db cid).repos
      = (((get_insights db cid "repo").take 3).filter
          (fun i => 2 ≤ i.sample_size)).map (fun i => (i.insight_key, i.score)) ∧
    (get_content_recommendations db cid).topics.length ≤ 5 ∧
    (get_content_recommendations db cid).repos.length ≤ 3 ∧
    (get_content_recommendations db cid).topics.Pairwise
      (fun a b => b.2 ≤ a.2) ∧
    (get_content_recommendations db cid).repos.Pairwise
      (fun a b => b.2 ≤ a.2) ∧
    (∀ p ∈ (get_content_recommendations db cid).topics,
      ∃ i ∈ db.insights, i.chat_id = cid ∧ i.insight_type = "topic" ∧
        2 ≤ i.sample_size ∧ i.insight_key = p.1 ∧ i.score = p.2) ∧
    (∀ p ∈ (get_content_recommendations db cid).repos,
      ∃ i ∈ db.insights, i.chat_id = cid ∧ i.insight_type = "repo" ∧
        2 ≤ i.sample_size ∧ i.insight_key = p.1 ∧ i.score = p.2) ∧
    (∀ k, (get_content_recommendations db cid).style = some k
      ↔ ∃ i, (get_insights db cid "style").head? = some i ∧
          3 ≤ i.sample_size ∧ k = i.insight_key) ∧
    (∀ k, (get_content_recommendations db cid).length = some k
      ↔ ∃ i, (get_insights db cid "length").head? = some i ∧
          3 ≤ i.sample_size ∧ k = i.insight_key) ∧
    (∀ i, (get_insights db cid "style").head? = some i →
      ∀ j ∈ db.insights, j.chat_id = cid → j.insight_type = "style" →
        j.score ≤ i.score) ∧
    (∀ i, (get_insights db cid "length").head? = some i →
      ∀ j ∈ db.insights, j.chat_id = cid → j.insight_type = "length" →
        j.score ≤ i.score) := by
  obtain ⟨ht1, ht2, ht3⟩ := recommendation_list_spec db cid "topic" 5
  obtain ⟨hr1, hr2, hr3⟩ := recommendation_list_spec db cid "repo" 3
  have hstyle : ∀ k, (get_content_recommendations db cid).style = some k
      ↔ ∃ i, (get_insights db cid "style").head? = some i ∧
          3 ≤ i.sample_size ∧ k = i.insight_key := by
    intro k
    show (match get_insights db cid "style" with
      | [] => none
      | i :: _ => if 3 ≤ i.sample_size then some i.insight_key else none)
        = some k ↔ _
    cases hl : get_insights db cid "style" with
    | nil => simp
    | cons i rest =>
      by_cases h3 : 3 ≤ i.sample_size
      · simp [h3, eq_comm]
      · simp [h3]
  have hlength : ∀ k, (get_content_recommendations db cid).length = some k
      ↔ ∃ i, (get_insights db cid "length").head? = some i ∧
          3 ≤ i.sample_size ∧ k = i.insight_key := by
    intro k
    show (match get_insights db cid "length" with
      | [] => none
      | i :: _ => if 3 ≤ i.sample_size then some i.insight_key else none)
        = some k ↔ _
    cases hl : get_insights db cid "length" with
    | nil => simp
    | cons i rest =>
      by_cases h3 : 3 ≤ i.sample_size
      · simp [h3, eq_comm]
      · simp [h3]
  exact ⟨rfl, rfl, ht1, hr1, ht2, hr2, ht3, hr3, hstyle, hlength,
    fun i => head_get_insights_max db cid "style" i,
    fun i => head_get_insights_max db cid "length" i⟩

/-- Witness for C4: with a style insight of sample size 3 on top, the
style recommendation is its key. -/
theorem get_content_recommendations_spec_witness :
    (get_content_recommendations recsScenarioDB "u1").style
      = some "with_code" :=
  ((get_content_recommendations_spec recsScenarioDB "u1").2.2.2.2.2.2.2.2.1
      "with_code").mpr
    ⟨⟨"u1", "style", "with_code", 70, 3⟩, by decide, by decide, by decide⟩

/-!  ## C8: learning from a post -/

/-- The row produced by one upsert, as a function of the prior row. -/
def upsertedRow (cid ty key : String) (score : ℚ) (n : ℕ) :
    Option Insight → Insight
  | none => ⟨cid, ty, key, score, n⟩
  | some i =>
    { i with
      score := (i.score * i.sample_size + score) / (i.sample_size + 1),
      sample_size := i.sample_size + 1 }

lemma findInsight_update_self (tbl : List Insight) (cid ty key : String)
    (score : ℚ) (n : ℕ) :
    findInsight (update_insight tbl cid ty key score n) cid ty key
      = some (upsertedRow cid ty key score n (findInsight tbl cid ty key)) := by
  cases hf : findInsight tbl cid ty key with
  | none => rw [findInsight_update_of_none tbl cid ty key score n hf]; rfl
  | some i => rw [findInsight_update_of_some tbl cid ty key score n i hf]; rfl

lemma findInsight_update_of_ne (tbl : List Insight)
    (cid ty key cid' ty' key' : String) (score : ℚ) (n : ℕ)
    (h : ¬(cid' = cid ∧ ty' = ty ∧ key' = key)) :
    findInsight (update_insight tbl cid' ty' key' score n) cid ty key
      = findInsight tbl cid ty key := by
  have hrow : insightKeyMatches ⟨cid', ty', key', score, n⟩ cid ty key
      = false := by
    rw [Bool.eq_false_iff]
    intro hb
    apply h
    simpa [insightKeyMatches, and_assoc] using hb
  rw [update_insight]
  split
  · rw [findInsight, List.find?_map]
    have hcomp : ((fun j => insightKeyMatches j cid ty key) ∘ (fun j =>
        if insightKeyMatches j cid' ty' key' then
          { j with
            score := (j.score * j.sample_size + score) / (j.sample_size + 1),
            sample_size := j.sample_size + 1 }
        else j)) = fun j => insightKeyMatches j cid ty key := by
      funext j
      by_cases hj : insightKeyMatches j cid' ty' key'
      · simp only [Function.comp_apply, if_pos hj]
        rfl
      · simp only [Function.comp_apply, if_neg hj]
    rw [hcomp]
    rw [findInsight]
    cases hf : tbl.find? (fun j => insightKeyMatches j cid ty key) with
    | none => rfl
    | some j =>
      have hpj : insightKeyMatches j cid ty key = true := by
        have := List.find?_some hf
        simpa using this
      have hji : insightKeyMatches j cid' ty' key' = false := by
        rw [Bool.eq_false_iff]
        intro hb
        apply h
        have h1 : j.chat_id = cid ∧ j.insight_type = ty ∧ j.insight_key = key := by
          simpa [insightKeyMatches, and_assoc] using hpj
        have h2 : j.chat_id = cid' ∧ j.insight_type = ty' ∧
            j.insight_key = key' := by
          simpa [insightKeyMatches, and_assoc] using hb
        exact ⟨h2.1 ▸ h1.1, h2.2.1 ▸ h1.2.1, h2.2.2 ▸ h1.2.2⟩
      simp [Option.map_some, hji]
  · rw [findInsight, List.find?_append]
    have hlast : List.find? (fun i => insightKeyMatches i cid ty key)
        [(⟨cid', ty', key', score, n⟩ : Insight)] = none := by
      simp [hrow]
    rw [hlast]
    rw [findInsight]
    cases tbl.find? (fun i => insightKeyMatches i cid ty key) <;> rfl

/-- The insight-table transformation of `learn_from_post` once the post and
metrics are known: conditional topic and repo upserts, then the style and
length upserts, all with engagement score `s` and sample size 1. -/
def learnChain (tbl : List Insight) (cid tk rk sk lk : String) (s : ℚ)
    (c1 c2 : Bool) : List Insight :=
  let t1 := if c1 then update_insight tbl cid "topic" tk s 1 else tbl
  let t2 := if c2 then update_insight t1 cid "repo" rk s 1 else t1
  let t3 := update_insight t2 cid "style" sk s 1
  update_insight t3 cid "length" lk s 1

lemma learnChain_before_style (tbl : List Insight) (cid tk rk : String)
    (s : ℚ) (c1 c2 : Bool) (ty key : String)
    (hty1 : ty ≠ "topic") (hty2 : ty ≠ "repo") :
    findInsight (if c2 then update_insight
        (if c1 then update_insight tbl cid "topic" tk s 1 else tbl)
        cid "repo" rk s 1
      else (if c1 then update_insight tbl cid "topic" tk s 1 else tbl))
      cid ty key = findInsight tbl cid ty key := by
  have h1 : findInsight
      (if c1 then update_insight tbl cid "topic" tk s 1 else tbl) cid ty key
        = findInsight tbl cid ty key := by
    cases c1 with
    | false => rfl
    | true =>
      exact findInsight_update_of_ne tbl cid ty key cid "topic" tk s 1
        (fun hc => hty1 hc.2.1.symm)
  cases c2 with
  | false => exact h1
  | true =>
    rw [if_pos rfl]
    rw [findInsight_update_of_ne _ cid ty key cid "repo" rk s 1
      (fun hc => hty2 hc.2.1.symm)]
    exact h1

lemma learnChain_length (tbl : List Insight) (cid tk rk sk lk : String)
    (s : ℚ) (c1 c2 : Bool) :
    findInsight (learnChain tbl cid tk rk sk lk s c1 c2) cid "length" lk
      = some (upsertedRow cid "length" lk s 1
          (findInsight tbl cid "length" lk)) := by
  show findInsight (update_insight (update_insight _ cid "style" sk s 1)
    cid "length" lk s 1) cid "length" lk = _
  rw [findInsight_update_self]
  rw [findInsight_update_of_ne _ cid "length" lk cid "style" sk s 1
    (by simp)]
  rw [learnChain_before_style tbl cid tk rk s c1 c2 "length" lk
    (by simp) (by simp)]

lemma learnChain_style (tbl : List Insight) (cid tk rk sk lk : String)
    (s : ℚ) (c1 c2 : Bool) :
    findInsight (learnChain tbl cid tk rk sk lk s c1 c2) cid "style" sk
      = some (upsertedRow cid "style" sk s 1
          (findInsight tbl cid "style" sk)) := by
  show findInsight (update_insight (update_insight _ cid "style" sk s 1)
    cid "length" lk s 1) cid "style" sk = _
  rw [findInsight_update_of_ne _ cid "style" sk cid "length" lk s 1
    (by simp)]
  rw [findInsight_update_self]
  rw [learnChain_before_style tbl cid tk rk s c1 c2 "style" sk
    (by simp) (by simp)]

lemma learnChain_topic_pos (tbl : List Insight) (cid tk rk sk lk : String)
    (s : ℚ) (c2 : Bool) :
    findInsight (learnChain tbl cid tk rk sk lk s true c2) cid "topic" tk
      = some (upsertedRow cid "topic" tk s 1
          (findInsight tbl cid "topic" tk)) := by
  show findInsight (update_insight (update_insight _ cid "style" sk s 1)
    cid "length" lk s 1) cid "topic" tk = _
  rw [findInsight_update_of_ne _ cid "topic" tk cid "length" lk s 1
    (by simp)]
  rw [findInsight_update_of_ne _ cid "topic" tk cid "style" sk s 1
    (by simp)]
  cases c2 with
  | false =>
    show findInsight (update_insight tbl cid "topic" tk s 1) cid "topic" tk = _
    rw [findInsight_update_self]
  | true =>
    show findInsight (update_insight (update_insight tbl cid "topic" tk s 1)
      cid "repo" rk s 1) cid "topic" tk = _
    rw [findInsight_update_of_ne _ cid "topic" tk cid "repo" rk s 1
      (by simp)]
    rw [findInsight_update_self]

lemma learnChain_topic_neg (tbl : List Insight) (cid tk rk sk lk : String)
    (s : ℚ) (c2 : Bool) (key : String) :
    findInsight (learnChain tbl cid tk rk sk lk s false c2) cid "topic" key
      = findInsight tbl cid "topic" key := by
  show findInsight (update_insight (update_insight _ cid "style" sk s 1)
    cid "length" lk s 1) cid "topic" key = _
  rw [findInsight_update_of_ne _ cid "topic" key cid "length" lk s 1
    (by simp)]
  rw [findInsight_update_of_ne _ cid "topic" key cid "style" sk s 1
    (by simp)]
  cases c2 with
  | false => rfl
  | true =>
    show findInsight (update_insight tbl cid "repo" rk s 1) cid "topic" key = _
    rw [findInsight_update_of_ne _ cid "topic" key cid "repo" rk s 1
      (by simp)]

lemma learnChain_repo_pos (tbl : List Insight) (cid tk rk sk lk : String)
    (s : ℚ) (c1 : Bool) :
    findInsight (learnChain tbl cid tk rk sk lk s c1 true) cid "repo" rk
      = some (upsertedRow cid "repo" rk s 1
          (findInsight
            (if c1 then update_insight tbl cid "topic" tk s 1 else tbl)
            cid "repo" rk)) := by
  show findInsight (update_insight (update_insight _ cid "style" sk s 1)
    cid "length" lk s 1) cid "repo" rk = _
  rw [findInsight_update_of_ne _ cid "repo" rk cid "length" lk s 1
    (by simp)]
  rw [findInsight_update_of_ne _ cid "repo" rk cid "style" sk s 1
    (by simp)]
  show findInsight (update_insight
    (if c1 then update_insight tbl cid "topic" tk s 1 else tbl)
    cid "repo" rk s 1) cid "repo" rk = _
  rw [findInsight_update_self]

lemma learnChain_repo_pos_table (tbl : List Insight) (cid tk rk : String)
    (s : ℚ) (c1 : Bool) :
    findInsight (if c1 then update_insight tbl cid "topic" tk s 1 else tbl)
      cid "repo" rk = findInsight tbl cid "repo" rk := by
  cases c1 with
  | false => rfl
  | true =>
    exact findInsight_update_of_ne tbl cid "repo" rk cid "topic" tk s 1
      (by simp)

lemma learnChain_repo_neg (tbl : List Insight) (cid tk rk sk lk : String)
    (s : ℚ) (c1 : Bool) (key : String) :
    findInsight (learnChain tbl cid tk rk sk lk s c1 false) cid "repo" key
      = findInsight tbl cid "repo" key := by
  show findInsight (update_insight (update_insight _ cid "style" sk s 1)
    cid "length" lk s 1) cid "repo" key = _
  rw [findInsight_update_of_ne _ cid "repo" key cid "length" lk s 1
    (by simp)]
  rw [findInsight_update_of_ne _ cid "repo" key cid "style" sk s 1
    (by simp)]
  cases c1 with
  | false => rfl
  | true =>
    show findInsight (update_insight tbl cid "topic" tk s 1) cid "repo" key = _
    rw [findInsight_update_of_ne _ cid "repo" key cid "topic" tk s 1
      (by simp)]

/-- C8: `learn_from_post` is a no-op when the post or its metrics are
missing; otherwise, writing only the insights table, it upserts the
engagement score into the `topic` dimension under the lowercased trend label
exactly when a (truthy) trend is recorded, into the `repo` dimension under
the URL's short name exactly when a (truthy) repository is recorded, and
always into the `style` dimension (key `with_code` iff the body contains a
fenced code marker, else `no_code`) and the `length` dimension (key
`short` below 100 whitespace-delimited words, `medium` below 250, else
`long`). -/
theorem learn_from_post_spec (db : DB) (pid cid : String) :
    (get_post db pid = none → learn_from_post db pid cid = db) ∧
    (get_metrics db pid = none → learn_from_post db pid cid = db) ∧
    (∀ wc : ℕ, (wc < 100 → lengthKeyOf wc = "short") ∧
      (100 ≤ wc → wc < 250 → lengthKeyOf wc = "medium") ∧
      (250 ≤ wc → lengthKeyOf wc = "long")) ∧
    (∀ post m, get_post db pid = some post → get_metrics db pid = some m →
      (learn_from_post db pid cid).posts = db.posts ∧
      (learn_from_post db pid cid).metrics = db.metrics ∧
      (learn_from_post db pid cid).user_repos = db.user_repos ∧
      (let score := calculate_engagement_score m.likes m.comments m.shares
        m.impressions
       let T := (learn_from_post db pid cid).insights
       let tk := lowerString (post.trend_matched.getD "")
       let rk := repoShortName (post.repo_url.getD "")
       let sk := if hasCodeFence post.content then "with_code" else "no_code"
       let lk := lengthKeyOf (wordCount post.content)
       (strTruthy post.trend_matched = true →
         findInsight T cid "topic" tk
           = some (upsertedRow cid "topic" tk score 1
               (findInsight db.insights cid "topic" tk))) ∧
       (strTruthy post.trend_matched = false →
         ∀ key, findInsight T cid "topic" key
           = findInsight db.insights cid "topic" key) ∧
       (strTruthy post.repo_url = true →
         findInsight T cid "repo" rk
           = some (upsertedRow cid "repo" rk score 1
               (findInsight db.insights cid "repo" rk))) ∧
       (strTruthy post.repo_url = false →
         ∀ key, findInsight T cid "repo" key
           = findInsight db.insights cid "repo" key) ∧
       findInsight T cid "style" sk
         = some (upsertedRow cid "style" sk score 1
             (findInsight db.insights cid "style" sk)) ∧
       findInsight T cid "length" lk
         = some (upsertedRow cid "length" lk score 1
             (findInsight db.insights cid "length" lk)))) := by
  refine ⟨?_, ?_, ?_, ?_⟩
  · intro h
    unfold learn_from_post
    rw [h]
  · intro h
    cases hp : get_post db pid with
    | none =>
      unfold learn_from_post
      rw [hp]
    | some post =>
      unfold learn_from_post
      rw [hp, h]
  · intro wc
    refine ⟨fun h => ?_, fun h1 h2 => ?_, fun h => ?_⟩
    · rw [lengthKeyOf, if_pos h]
    · rw [lengthKeyOf, if_neg (by omega), if_pos h2]
    · rw [lengthKeyOf, if_neg (by omega), if_neg (by omega)]
  · intro post m hp hm
    have hT : (learn_from_post db pid cid).insights
        = learnChain db.insights cid
            (lowerString (post.trend_matched.getD ""))
            (repoShortName (post.repo_url.getD ""))
            (if hasCodeFence post.content then "with_code" else "no_code")
            (lengthKeyOf (wordCount post.content))
            (calculate_engagement_score m.likes m.comments m.shares
              m.impressions)
            (strTruthy post.trend_matched) (strTruthy post.repo_url) := by
      unfold learn_from_post learnChain
      rw [hp, hm]
    have hposts : (learn_from_post db pid cid).posts = db.posts := by
      unfold learn_from_post
      rw [hp, hm]
    have hmetrics : (learn_from_post db pid cid).metrics = db.metrics := by
      unfold learn_from_post
      rw [hp, hm]
    have hrepos : (learn_from_post db pid cid).user_repos = db.user_repos := by
      unfold learn_from_post
      rw [hp, hm]
    refine ⟨hposts, hmetrics, hrepos, ?_, ?_, ?_, ?_, ?_, ?_⟩
    · intro h1
      rw [hT, h1]
      exact learnChain_topic_pos _ _ _ _ _ _ _ _
    · intro h1 key
      rw [hT, h1]
      exact learnChain_topic_neg _ _ _ _ _ _ _ _ key
    · intro h2
      rw [hT, h2]
      rw [learnChain_repo_pos]
      rw [learnChain_repo_pos_table]
    · intro h2 key
      rw [hT, h2]
      exact learnChain_repo_neg _ _ _ _ _ _ _ _ key
    · rw [hT]
      exact learnChain_style _ _ _ _ _ _ _ _ _
    · rw [hT]
      exact learnChain_length _ _ _ _ _ _ _ _ _

/-- Witness for C8: learning from an unknown post is a no-op. -/
theorem learn_from_post_spec_witness :
    learn_from_post emptyDB "p1" "u1" = emptyDB :=
  (learn_from_post_spec emptyDB "p1" "u1").1 rfl

end CodeToContent
